import Mathlib

/-
Shallow embedding of src/mini_assembler.py: the instruction data model,
the regex-driven recognizer, the parse_assembly loader/validator, and the
generator-driven execution loop, together with theorems checking the
specification's claims against this embedding.
-/

set_option linter.unusedVariables false

namespace MiniAssembler

/-- Character class [a-zA-Z] used by every variable pattern. -/
def isLetterCh (c : Char) : Bool :=
  ('a' ≤ c && c ≤ 'z') || ('A' ≤ c && c ≤ 'Z')

/-- Character class \d used by line numbers and jump targets. -/
def isDigitCh (c : Char) : Bool :=
  '0' ≤ c && c ≤ '9'

/-- Python int() on a non-empty decimal digit string. -/
def natOfDigits (ds : List Char) : Nat :=
  ds.foldl (fun a c => a * 10 + (c.toNat - '0'.toNat)) 0

/-- Whitespace stripped by str.strip() (ASCII forms occurring in source text). -/
def isSpaceCh (c : Char) : Bool :=
  c == ' ' || c == '\t' || c == '\n' || c == '\r'

/-- Python code.strip(): drop leading and trailing whitespace. -/
def trimChars (cs : List Char) : List Char :=
  ((cs.dropWhile isSpaceCh).reverse.dropWhile isSpaceCh).reverse

/-- The typed instruction of mini_assembler.Instruction: one constructor per
regex key, holding exactly the payload fields __init__ stores for that key.
Jump targets are Python ints obtained by int() on the digit group. -/
inductive Instruction where
  | jump_zero (value_one : Char) (jump_to : Int)
  | inc (value_one : Char)
  | dec (value_one : Char)
  | jump (jump_to : Int)
  | halt
  | set_zero (value_one : Char)
  | transfer (value_one value_two : Char)
  | add (value_one value_two : Char)
  | abs_diff (value_one value_two value_three : Char)
  deriving DecidableEq, Repr

/-- re.fullmatch of r"if \((id) == 0\) goto (digits)" on the stripped code. -/
def matchJumpZero : List Char → Option (Char × Nat)
  | 'i' :: 'f' :: ' ' :: '(' :: v :: ' ' :: '=' :: '=' :: ' ' :: '0' :: ')' :: ' '
      :: 'g' :: 'o' :: 't' :: 'o' :: ' ' :: ds =>
    if isLetterCh v && !ds.isEmpty && ds.all isDigitCh then
      some (v, natOfDigits ds)
    else none
  | _ => none

/-- re.fullmatch of r"(id) = id + 1" with a backreference forcing the two
identifiers to be the same character. -/
def matchInc : List Char → Option Char
  | [v, ' ', '=', ' ', w, ' ', '+', ' ', '1'] =>
    if isLetterCh v && w == v then some v else none
  | _ => none

/-- re.fullmatch of r"(id) = id - 1" with a backreference. -/
def matchDec : List Char → Option Char
  | [v, ' ', '=', ' ', w, ' ', '-', ' ', '1'] =>
    if isLetterCh v && w == v then some v else none
  | _ => none

/-- re.fullmatch of r"goto (digits)". -/
def matchJump : List Char → Option Nat
  | 'g' :: 'o' :: 't' :: 'o' :: ' ' :: ds =>
    if !ds.isEmpty && ds.all isDigitCh then some (natOfDigits ds) else none
  | _ => none

/-- re.fullmatch of r"stop". -/
def matchHalt : List Char → Bool
  | ['s', 't', 'o', 'p'] => true
  | _ => false

/-- re.fullmatch of r"(id) = 0". -/
def matchSetZero : List Char → Option Char
  | [v, ' ', '=', ' ', '0'] => if isLetterCh v then some v else none
  | _ => none

/-- re.fullmatch of r"(id) = (id)", the transfer extension. -/
def matchTransfer : List Char → Option (Char × Char)
  | [d, ' ', '=', ' ', s] =>
    if isLetterCh d && isLetterCh s then some (d, s) else none
  | _ => none

/-- re.fullmatch of r"(id) = id + (id)" with a backreference on the first two
identifiers, the add extension. -/
def matchAdd : List Char → Option (Char × Char)
  | [d, ' ', '=', ' ', w, ' ', '+', ' ', s] =>
    if isLetterCh d && w == d && isLetterCh s then some (d, s) else none
  | _ => none

/-- re.fullmatch of r"(id) = abs\((id) - (id)\)", the abs_diff extension. -/
def matchAbsDiff : List Char → Option (Char × Char × Char)
  | [d, ' ', '=', ' ', 'a', 'b', 's', '(', l, ' ', '-', ' ', r, ')'] =>
    if isLetterCh d && isLetterCh l && isLetterCh r then some (d, l, r) else none
  | _ => none

/-- The basic_instructions dict tried in insertion order:
jump_zero, inc, dec, jump, halt, set_zero; first full match wins. -/
def recognizeBasic (code : List Char) : Option Instruction :=
  match matchJumpZero code with
  | some (v, t) => some (.jump_zero v (t : Int))
  | none =>
  match matchInc code with
  | some v => some (.inc v)
  | none =>
  match matchDec code with
  | some v => some (.dec v)
  | none =>
  match matchJump code with
  | some t => some (.jump (t : Int))
  | none =>
  if matchHalt code then some .halt
  else
  match matchSetZero code with
  | some v => some (.set_zero v)
  | none => none

/-- The ext_instructions loop: pattern i (0 = transfer, 1 = add, 2 = abs_diff)
is attempted only while i <= ext; the loop breaks at the first i exceeding ext. -/
def recognizeExt (ext : Int) (code : List Char) : Option Instruction :=
  if (0 : Int) ≤ ext then
    match matchTransfer code with
    | some (d, s) => some (.transfer d s)
    | none =>
      if (1 : Int) ≤ ext then
        match matchAdd code with
        | some (d, s) => some (.add d s)
        | none =>
          if (2 : Int) ≤ ext then
            match matchAbsDiff code with
            | some (d, l, r) => some (.abs_diff d l r)
            | none => none
          else none
      else none
  else none

/-- Classify one stripped code fragment: the basic table first, then the
extension table gated by the stored extension level. -/
def recognize (ext : Int) (code : List Char) : Option Instruction :=
  match recognizeBasic code with
  | some inst => some inst
  | none => recognizeExt ext code

/-- re.match of r"\((digits)\) (.*)" against a raw source line (without its
trailing newline, which the dot never matches anyway): an opening parenthesis,
a non-empty greedy digit group, a closing parenthesis, one space, then the
rest of the line as the code fragment. -/
def parseLine (line : List Char) : Option (Nat × List Char) :=
  match line with
  | '(' :: rest =>
    match rest.takeWhile isDigitCh, rest.dropWhile isDigitCh with
    | [], _ => none
    | ds, ')' :: ' ' :: code => some (natOfDigits ds, code)
    | _, _ => none
  | _ => none

/-- Comment test: line.startswith("//"). -/
def isComment : List Char → Bool
  | '/' :: '/' :: _ => true
  | _ => false

/-- The SyntaxError raised by each check of parse_assembly. -/
inductive SynErr where
  | noLineNumber
  | duplicateLineNumber
  | noMatch
  | nonContiguous
  deriving DecidableEq, Repr

/-- The line-reading loop of parse_assembly: skip comment lines, require the
line-number marker, reject duplicate line numbers, classify the stripped code
fragment, and record instructions keyed by line number in insertion order
(Python dicts preserve insertion order). -/
def parseLinesAux (ext : Int) :
    List (List Char) → List (Nat × Instruction) →
      Except SynErr (List (Nat × Instruction))
  | [], acc => .ok acc
  | line :: rest, acc =>
    if isComment line then parseLinesAux ext rest acc
    else
      match parseLine line with
      | none => .error .noLineNumber
      | some (n, code) =>
        if (List.lookup n acc).isSome then .error .duplicateLineNumber
        else
          match recognize ext (trimChars code) with
          | none => .error .noMatch
          | some inst => parseLinesAux ext rest (acc ++ [(n, inst)])

/-- The final check of parse_assembly, over the dict keys in insertion order:
the i-th key (0-based i) must equal i + 1. -/
def contigList : Nat → List Nat → Bool
  | _, [] => true
  | k, n :: rest => n == k && contigList (k + 1) rest

/-- The list k, k+1, ..., k+n-1, used to characterise contigList. -/
def upFrom : Nat → Nat → List Nat
  | _, 0 => []
  | k, n + 1 => k :: upFrom (k + 1) n

/-- AssemblyParser.__init__ stores the extension level: the source assigns the
literal 0 to self.ext, ignoring the ext argument it was given (line 85). -/
def initExt (ext : Int) : Int := 0

/-- parse_assembly on the whole file: run the line loop with the stored
extension level, then enforce contiguous 1-based numbering in insertion order,
returning the instruction dict as an insertion-ordered association list. -/
def parseAssembly (ext : Int) (lines : List (List Char)) :
    Except SynErr (List (Nat × Instruction)) :=
  match parseLinesAux (initExt ext) lines [] with
  | .error e => .error e
  | .ok insts =>
    if contigList 1 (insts.map Prod.fst) then .ok insts
    else .error .nonContiguous

/-- The mutable variable table: Python's dict maps each identifier either to an
integer or to None. Every identifier an instruction can read is collected into
the dict (initialised to None) before the run, so a dict lookup the interpreter
performs never misses; an entry that is absent and an entry holding None are
therefore observationally identical at every read, and the table is modelled
as a total function defaulting to none. -/
abbrev Vars := Char → Option Int

/-- Payload identifiers (value_one/value_two/value_three) of one instruction,
as collected by the variable-discovery scan of parse_assembly. -/
def payloadVars : Instruction → List Char
  | .jump_zero v _ => [v]
  | .inc v => [v]
  | .dec v => [v]
  | .jump _ => []
  | .halt => []
  | .set_zero v => [v]
  | .transfer a b => [a, b]
  | .add a b => [a, b]
  | .abs_diff a b c => [a, b, c]

/-- All identifiers mentioned in any parsed instruction. -/
def mentionedVars (insts : List (Nat × Instruction)) : List Char :=
  (insts.map (fun p => payloadVars p.2)).flatten

/-- Lookup in the caller-supplied start_state (a dict, so keys are unique;
modelled as an association list). -/
def lookupStart : List (Char × Int) → Char → Option Int
  | [], _ => none
  | (c, v) :: rest, d => if c == d then some v else lookupStart rest d

/-- The variable table parse_assembly builds: every mentioned identifier set to
None, then overlaid with the caller-supplied start_state bindings (which may
add identifiers the program never mentions). Both the mentioned-but-unset and
the never-mentioned cases read as none. -/
def buildVars (insts : List (Nat × Instruction)) (start : List (Char × Int)) :
    Vars :=
  fun c =>
    match lookupStart start c with
    | some v => some v
    | none => if (mentionedVars insts).contains c then none else none

/-- State of the instruction_generator coroutine: its local variables
instruction (the value it yields) and count (the steps taken so far). -/
structure Gen where
  instruction : Int
  count : Nat
  deriving DecidableEq, Repr

/-- One resumption of instruction_generator: the value sent in (None for a
plain next(), a line number for send(jump)) updates instruction, count is
incremented, and the generator either stops (count exceeded the limit) or
yields the new instruction value. -/
def genResume (limit : Nat) (g : Gen) (jump : Option Int) : Option Gen :=
  let inst2 : Int :=
    match jump with
    | some j => j - 1
    | none => g.instruction + 1
  let c2 := g.count + 1
  if c2 > limit then none else some ⟨inst2, c2⟩

/-- Errors the run loop can raise: the KeyError for a missing line, the
TypeErrors for uninitialized increment/decrement, the TypeError Python raises
when add or abs_diff touches a None operand, the StopIteration that escapes
when generator.send is the resumption that exhausts the step budget, and fuel
exhaustion of the embedding (never reached when fuel exceeds the limit). -/
inductive RunErr where
  | jumpTarget (i : Int)
  | uninitInc (i : Int)
  | uninitDec (i : Int)
  | stopIterSend
  | typeErrorAdd (i : Int)
  | typeErrorAbsDiff (i : Int)
  | fuelOut
  deriving DecidableEq, Repr

/-- Outcome of a run, carrying the variable table at termination. -/
inductive RunResult where
  | ok (vars : Vars)
  | err (e : RunErr) (vars : Vars)

/-- Effect of one dispatched instruction on the loop: advance to the next line,
jump (a generator.send followed by the loop's next()), halt (break), or raise. -/
inductive Eff where
  | next (vars : Vars)
  | jmp (t : Int) (vars : Vars)
  | halted (vars : Vars)
  | fail (e : RunErr) (vars : Vars)

/-- The dispatch chain of AssemblyParser.run for one instruction at line i:
the if-blocks keyed on inst.key, which are mutually exclusive. A jump_zero
whose variable holds None compares None == 0, which is False in Python, so the
jump is not taken. -/
def execInst (i : Int) (inst : Instruction) (vars : Vars) : Eff :=
  match inst with
  | .jump_zero v t => if vars v = some 0 then .jmp t vars else .next vars
  | .inc v =>
    match vars v with
    | none => .fail (.uninitInc i) vars
    | some n => .next (Function.update vars v (some (n + 1)))
  | .dec v =>
    match vars v with
    | none => .fail (.uninitDec i) vars
    | some n => .next (Function.update vars v (some (n - 1)))
  | .jump t => .jmp t vars
  | .halt => .halted vars
  | .set_zero v => .next (Function.update vars v (some 0))
  | .transfer d s => .next (Function.update vars d (vars s))
  | .add d s =>
    match vars d, vars s with
    | some a, some b => .next (Function.update vars d (some (a + b)))
    | _, _ => .fail (.typeErrorAdd i) vars
  | .abs_diff d l r =>
    match vars l, vars r with
    | some a, some b => .next (Function.update vars d (some |a - b|))
    | _, _ => .fail (.typeErrorAbsDiff i) vars

/-- The for-loop of AssemblyParser.run, with the current yielded line i and
generator state g. Each iteration resolves instructions[i] (KeyError if
absent), dispatches, and then either breaks, raises, or resumes the generator:
once for a plain fall-through (next()), twice for a jump (send, whose yielded
value is discarded, then next()). A resumption returning none means the
generator exhausted its budget: on the loop's own next() the for-statement
ends normally, on a send a StopIteration escapes. The returned list records
the line numbers resolved, in execution order. Fuel only bounds the recursion
and exceeds the reachable iteration count whenever fuel > limit + 1. -/
def runAux (limit : Nat) (insts : Int → Option Instruction) :
    Nat → Gen → Int → Vars → RunResult × List Int
  | 0, _, _, vars => (.err .fuelOut vars, [])
  | fuel + 1, g, i, vars =>
    match insts i with
    | none => (.err (.jumpTarget i) vars, [i])
    | some inst =>
      match execInst i inst vars with
      | .fail e v => (.err e v, [i])
      | .halted v => (.ok v, [i])
      | .next v =>
        match genResume limit g none with
        | none => (.ok v, [i])
        | some g2 =>
          let r := runAux limit insts fuel g2 g2.instruction v
          (r.1, i :: r.2)
      | .jmp t v =>
        match genResume limit g (some t) with
        | none => (.err .stopIterSend v, [i])
        | some g1 =>
          match genResume limit g1 none with
          | none => (.ok v, [i])
          | some g2 =>
            let r := runAux limit insts fuel g2 g2.instruction v
            (r.1, i :: r.2)

/-- AssemblyParser.run: the generator starts with instruction = 1 and
count = 0 and yields 1 immediately (the first budget check compares 0 with the
limit). Fuel limit + 2 strictly exceeds every reachable iteration count. -/
def run (limit : Nat) (insts : Int → Option Instruction) (vars : Vars) :
    RunResult × List Int :=
  runAux limit insts (limit + 2) ⟨1, 0⟩ 1 vars

/-- Dict lookup instructions[i] with the Python-int program counter. -/
def instLookup (insts : List (Nat × Instruction)) (i : Int) :
    Option Instruction :=
  (insts.find? (fun p => (p.1 : Int) == i)).map Prod.snd

/-- The whole pipeline at the default step limit 300: parse_assembly followed
by run, with the caller-supplied initial bindings. -/
def parseAndRun (ext : Int) (lines : List (List Char))
    (start : List (Char × Int)) : Option (RunResult × List Int) :=
  match parseAssembly ext lines with
  | .error _ => none
  | .ok insts => some (run 300 (instLookup insts) (buildVars insts start))

/-- Variable table carried by a run outcome. -/
def resultVars : RunResult → Vars
  | .ok v => v
  | .err _ v => v

/-- Whether a run terminated without raising. -/
def isOkB : RunResult → Bool
  | .ok _ => true
  | .err _ _ => false

/-- One variable's final value in a run outcome. -/
def varAt (r : RunResult) (c : Char) : Option Int :=
  resultVars r c

/-- Characters of a source line. -/
def chars (s : String) : List Char := s.data

/-- Characterisation of the contiguity check: it accepts exactly the list
k, k+1, ..., counting up by one from k. -/
lemma contigList_iff : ∀ (l : List Nat) (k : Nat),
    contigList k l = true ↔ l = upFrom k l.length
  | [], k => by simp [contigList, upFrom]
  | n :: rest, k => by
    simp [contigList, upFrom, contigList_iff rest (k + 1)]

/-- C1: with the default extension level -1 the line x = y is nonetheless
recognized as a Transfer instruction, because __init__ stores the literal 0
in self.ext instead of the constructor argument; for the same reason level 2
fails to enable Add (x = x + y is rejected), and the parse result is entirely
independent of the supplied level. This contradicts the claim (and the class
docstring) that level -1 enables no extension form and level 2 enables all
three. -/
theorem ext_argument_ignored :
    (∀ (e1 e2 : Int) (lines : List (List Char)),
        parseAssembly e1 lines = parseAssembly e2 lines) ∧
    parseAssembly (-1) [chars "(1) x = y"] =
      .ok [(1, .transfer 'x' 'y')] ∧
    parseAssembly 2 [chars "(1) x = x + y"] = .error .noMatch :=
  ⟨fun _ _ _ => rfl, rfl, rfl⟩

/-- C2 counterexample: the two-line file with lines numbered (2) then (1) has
line-number set {1, 2} = {1..N}, every line recognized and no duplicates, yet
parse_assembly raises the non-contiguous SyntaxError, because the check walks
the line numbers in file (insertion) order, not sorted order. -/
theorem out_of_order_contiguous_rejected :
    parseLinesAux (initExt (-1)) [chars "(2) stop", chars "(1) stop"] [] =
      .ok [(2, .halt), (1, .halt)] ∧
    parseAssembly (-1) [chars "(2) stop", chars "(1) stop"] =
      .error .nonContiguous :=
  ⟨rfl, rfl⟩

/-- C2 amended: for every source file and extension level, parse_assembly
succeeds if and only if the line-reading loop succeeds and the line numbers in
file order are exactly the sequence 1, 2, ..., N; a contiguous set presented
out of order is rejected with the non-contiguous SyntaxError, which is raised
during parsing, before any execution. -/
theorem parse_ok_iff_file_order_contiguous (ext : Int)
    (lines : List (List Char)) :
    (∃ insts, parseAssembly ext lines = .ok insts) ↔
    (∃ insts, parseLinesAux (initExt ext) lines [] = .ok insts ∧
      insts.map Prod.fst = upFrom 1 insts.length) := by
  unfold parseAssembly
  cases h : parseLinesAux (initExt ext) lines [] with
  | error e => simp
  | ok insts =>
    have hlen : (insts.map Prod.fst).length = insts.length :=
      List.length_map _ _
    by_cases hc : contigList 1 (insts.map Prod.fst) = true
    · simp only [hc, if_true]
      constructor
      · rintro ⟨out, hout⟩
        refine ⟨insts, rfl, ?_⟩
        have := (contigList_iff (insts.map Prod.fst) 1).mp hc
        rwa [hlen] at this
      · rintro ⟨insts2, h2, _⟩
        exact ⟨insts, rfl⟩
    · simp only [hc, if_false]
      constructor
      · rintro ⟨out, hout⟩
        exact absurd hout (by simp)
      · rintro ⟨insts2, h2, hord⟩
        cases Except.ok.inj h2
        exact absurd ((contigList_iff _ 1).mpr (by rwa [hlen])) hc

set_option maxRecDepth 40000

/-- C3 counterexample: running (1) x = x + 1 / (2) goto 1 from x = 0 with the
default step limit 300 leaves x = 101, not 300: each trip around the loop
costs three generator resumptions (one for the increment line, two for the
goto, whose send consumes a step whose yield is discarded). -/
theorem loop_final_x_is_101_not_300 :
    (parseAndRun (-1) [chars "(1) x = x + 1", chars "(2) goto 1"]
        [('x', 0)]).map (fun p => varAt p.1 'x') = some (some 101) ∧
    ¬ (parseAndRun (-1) [chars "(1) x = x + 1", chars "(2) goto 1"]
        [('x', 0)]).map (fun p => varAt p.1 'x') = some (some 300) := by
  have h1 : (parseAndRun (-1) [chars "(1) x = x + 1", chars "(2) goto 1"]
      [('x', 0)]).map (fun p => varAt p.1 'x') = some (some 101) := rfl
  exact ⟨h1, by rw [h1]; simp⟩

/-- C3 amended: running (1) x = x + 1 / (2) goto 1 from x = 0 terminates
normally when the step bound 300 is reached, raising no error, and the final
value of x is 101 = 1 + 300 / 3, since every loop iteration consumes three of
the 300 generator steps (the send's discarded resumption included). -/
theorem loop_stops_at_bound_without_error :
    (parseAndRun (-1) [chars "(1) x = x + 1", chars "(2) goto 1"]
        [('x', 0)]).map (fun p => (isOkB p.1, varAt p.1 'x')) =
      some (true, some 101) := rfl

/-- C7: running (1) if (x == 0) goto 3 / (2) x = x + 1 / (3) stop from x = 0
executes exactly lines 1 and 3 (line 2 is never resolved), halts without
error, and leaves x = 0. -/
theorem cond_jump_skips_line_two :
    (parseAndRun (-1) [chars "(1) if (x == 0) goto 3", chars "(2) x = x + 1",
        chars "(3) stop"] [('x', 0)]).map
      (fun p => (isOkB p.1, varAt p.1 'x', p.2)) =
      some (true, some 0, [1, 3]) := rfl

/-- C9: the program consisting solely of (1) stop halts immediately having
executed only line 1, and for every caller-supplied initial binding list the
final variable table is exactly the table built before the run — every entry,
initial bindings included, is unchanged. -/
theorem stop_program_leaves_vars_untouched :
    ∀ start : List (Char × Int),
      parseAndRun (-1) [chars "(1) stop"] start =
        some (.ok (buildVars [(1, .halt)] start), [1]) :=
  fun _ => rfl

/-- C4: whenever the loop body runs with a program counter whose line number
carries no instruction — be it a jump target out of range or the line past the
last instruction reached by falling through — the run raises the KeyError for
an unknown jump target and stops there; it never ends normally in that
situation. -/
theorem missing_line_always_errors (limit : Nat)
    (insts : Int → Option Instruction) (fuel : Nat) (g : Gen) (i : Int)
    (vars : Vars) (h : insts i = none) :
    runAux limit insts (fuel + 1) g i vars =
      (.err (.jumpTarget i) vars, [i]) := by
  simp [runAux, h]

/-- Single-line program goto 99: no instruction at line 99. -/
def instsJump99 : Int → Option Instruction :=
  fun i => if i == 1 then some (.jump 99) else none

/-- Witness for C4 at the concrete pc 99 of the program (1) goto 99. -/
theorem missing_line_always_errors_witness :
    runAux 300 instsJump99 1 ⟨99, 2⟩ 99 (fun _ => none) =
      (.err (.jumpTarget 99) (fun _ => none), [99]) :=
  missing_line_always_errors 300 instsJump99 0 ⟨99, 2⟩ 99 (fun _ => none) rfl

/-- C5: executing Increment or Decrement raises the uninitialized-variable
TypeError exactly when the named variable holds None: if it does, the loop
iteration at that line returns the error immediately with nothing else
executed; if it holds an integer, the dispatch succeeds with the plus-or-minus
one update and the fall-through effect. -/
theorem inc_dec_uninit_error_iff (limit : Nat)
    (insts : Int → Option Instruction) (fuel : Nat) (g : Gen) (i : Int)
    (v : Char) (vars : Vars) :
    (vars v = none →
      (insts i = some (.inc v) →
        runAux limit insts (fuel + 1) g i vars =
          (.err (.uninitInc i) vars, [i])) ∧
      (insts i = some (.dec v) →
        runAux limit insts (fuel + 1) g i vars =
          (.err (.uninitDec i) vars, [i]))) ∧
    (∀ n : Int, vars v = some n →
      execInst i (.inc v) vars =
        .next (Function.update vars v (some (n + 1))) ∧
      execInst i (.dec v) vars =
        .next (Function.update vars v (some (n - 1)))) := by
  constructor
  · intro hv
    constructor
    · intro hi; simp [runAux, hi, execInst, hv]
    · intro hi; simp [runAux, hi, execInst, hv]
  · intro n hv
    constructor <;> simp [execInst, hv]

/-- Single-line program x = x + 1 with x never initialised. -/
def instsInc1 : Int → Option Instruction :=
  fun i => if i == 1 then some (.inc 'x') else none

/-- Witness for C5: incrementing the uninitialised x at line 1 raises. -/
theorem inc_dec_uninit_error_iff_witness :
    runAux 300 instsInc1 1 ⟨1, 0⟩ 1 (fun _ => none) =
      (.err (.uninitInc 1) (fun _ => none), [1]) :=
  ((inc_dec_uninit_error_iff 300 instsInc1 0 ⟨1, 0⟩ 1 'x'
      (fun _ => none)).1 rfl).1 rfl

/-- Variable table after one dispatched instruction when the step falls
through to the next line (the .next effect); none when the step jumps, halts
or raises. The line number passed to execInst only decorates error values,
which the .next projection discards. -/
def execNextVars (inst : Instruction) (vars : Vars) : Option Vars :=
  match execInst 0 inst vars with
  | .next w => some w
  | _ => none

/-- n-fold execution of one instruction through the fall-through effect. -/
def iterInst (inst : Instruction) : Nat → Vars → Option Vars
  | 0, vars => some vars
  | n + 1, vars => (execNextVars inst vars).bind (iterInst inst n)

/-- Executing Increment n times from an initialised variable adds n to it and
touches no other variable. -/
lemma iterInc_spec (x : Char) : ∀ (n : Nat) (v : Int) (vars : Vars),
    vars x = some v →
    ∃ w, iterInst (.inc x) n vars = some w ∧ w x = some (v + n) ∧
      ∀ c, c ≠ x → w c = vars c
  | 0, v, vars, h => ⟨vars, rfl, by simpa using h, fun c _ => rfl⟩
  | n + 1, v, vars, h => by
    have hstep : execNextVars (.inc x) vars =
        some (Function.update vars x (some (v + 1))) := by
      simp [execNextVars, execInst, h]
    have hx : Function.update vars x (some (v + 1)) x = some (v + 1) :=
      Function.update_same x _ vars
    obtain ⟨w, hw, hwx, hwo⟩ := iterInc_spec x n (v + 1) _ hx
    refine ⟨w, ?_, ?_, ?_⟩
    · simp [iterInst, hstep, hw]
    · rw [hwx]; congr 1; push_cast; ring
    · intro c hc
      rw [hwo c hc, Function.update_noteq hc]

/-- Executing Decrement n times from an initialised variable subtracts n from
it and touches no other variable. -/
lemma iterDec_spec (x : Char) : ∀ (n : Nat) (v : Int) (vars : Vars),
    vars x = some v →
    ∃ w, iterInst (.dec x) n vars = some w ∧ w x = some (v - n) ∧
      ∀ c, c ≠ x → w c = vars c
  | 0, v, vars, h => ⟨vars, rfl, by simpa using h, fun c _ => rfl⟩
  | n + 1, v, vars, h => by
    have hstep : execNextVars (.dec x) vars =
        some (Function.update vars x (some (v - 1))) := by
      simp [execNextVars, execInst, h]
    have hx : Function.update vars x (some (v - 1)) x = some (v - 1) :=
      Function.update_same x _ vars
    obtain ⟨w, hw, hwx, hwo⟩ := iterDec_spec x n (v - 1) _ hx
    refine ⟨w, ?_, ?_, ?_⟩
    · simp [iterInst, hstep, hw]
    · rw [hwx]; congr 1; push_cast; ring
    · intro c hc
      rw [hwo c hc, Function.update_noteq hc]

/-- C6: on a variable holding v, Increment yields exactly v + 1 and Decrement
exactly v - 1, and n Increments followed by n Decrements return the variable
to its original value. -/
theorem inc_dec_exact_and_cancel (x : Char) (v : Int) (n : Nat) (vars : Vars)
    (h : vars x = some v) :
    execNextVars (.inc x) vars =
      some (Function.update vars x (some (v + 1))) ∧
    execNextVars (.dec x) vars =
      some (Function.update vars x (some (v - 1))) ∧
    ∃ w, (iterInst (.inc x) n vars).bind (iterInst (.dec x) n) = some w ∧
      w x = some v := by
  refine ⟨by simp [execNextVars, execInst, h],
    by simp [execNextVars, execInst, h], ?_⟩
  obtain ⟨w1, hw1, hw1x, _⟩ := iterInc_spec x n v vars h
  obtain ⟨w2, hw2, hw2x, _⟩ := iterDec_spec x n (v + n) w1 hw1x
  refine ⟨w2, by simp [hw1, hw2], ?_⟩
  rw [hw2x]; congr 1; ring

/-- Concrete table holding x = 5. -/
def varsX5 : Vars := fun c => if c == 'x' then some 5 else none

/-- Witness for C6 with x = 5 and n = 2. -/
theorem inc_dec_exact_and_cancel_witness :
    execNextVars (.inc 'x') varsX5 =
      some (Function.update varsX5 'x' (some (5 + 1))) ∧
    execNextVars (.dec 'x') varsX5 =
      some (Function.update varsX5 'x' (some (5 - 1))) ∧
    ∃ w, (iterInst (.inc 'x') 2 varsX5).bind (iterInst (.dec 'x') 2) =
        some w ∧ w 'x' = some 5 :=
  inc_dec_exact_and_cancel 'x' 5 2 varsX5 rfl

/-- C8: a Transfer whose source holds None raises nothing: the destination is
set to None, the loop iteration completes with the fall-through effect, and
execution continues at pc + 1 (when a generator step remains within the
budget). -/
theorem transfer_propagates_uninitialized (limit : Nat)
    (insts : Int → Option Instruction) (fuel : Nat) (g : Gen) (i : Int)
    (d s : Char) (vars : Vars) (hins : insts i = some (.transfer d s))
    (hs : vars s = none) (hgi : g.instruction = i)
    (hc : g.count + 1 ≤ limit) :
    Function.update vars d (vars s) d = none ∧
    runAux limit insts (fuel + 1) g i vars =
      ((runAux limit insts fuel ⟨i + 1, g.count + 1⟩ (i + 1)
          (Function.update vars d (vars s))).1,
        i :: (runAux limit insts fuel ⟨i + 1, g.count + 1⟩ (i + 1)
          (Function.update vars d (vars s))).2) := by
  have hres : genResume limit g none = some ⟨i + 1, g.count + 1⟩ := by
    simp [genResume, hgi, Nat.not_lt.mpr hc]
  constructor
  · rw [hs]; exact Function.update_same d none vars
  · simp [runAux, hins, execInst, hres]

/-- Single-line program x = y with both variables uninitialised. -/
def instsTransfer1 : Int → Option Instruction :=
  fun i => if i == 1 then some (.transfer 'x' 'y') else none

/-- Witness for C8: x = y at line 1 with y = None proceeds to line 2. -/
theorem transfer_propagates_uninitialized_witness :
    Function.update (fun _ => (none : Option Int)) 'x'
        ((fun _ => (none : Option Int)) 'y') 'x' = none ∧
    runAux 300 instsTransfer1 (3 + 1) ⟨1, 0⟩ 1 (fun _ => none) =
      ((runAux 300 instsTransfer1 3 ⟨1 + 1, 0 + 1⟩ (1 + 1)
          (Function.update (fun _ => none) 'x'
            ((fun _ => (none : Option Int)) 'y'))).1,
        1 :: (runAux 300 instsTransfer1 3 ⟨1 + 1, 0 + 1⟩ (1 + 1)
          (Function.update (fun _ => none) 'x'
            ((fun _ => (none : Option Int)) 'y'))).2) :=
  transfer_propagates_uninitialized 300 instsTransfer1 3 ⟨1, 0⟩ 1 'x' 'y'
    (fun _ => none) rfl rfl rfl (by decide)

/-- C10: a JumpIfZero whose tested variable holds None raises nothing: Python
evaluates None == 0 to False, so the jump is not taken, the table is
untouched, and execution continues at pc + 1 (when a generator step remains
within the budget). -/
theorem jump_zero_uninit_not_taken (limit : Nat)
    (insts : Int → Option Instruction) (fuel : Nat) (g : Gen) (i : Int)
    (v : Char) (t : Int) (vars : Vars)
    (hins : insts i = some (.jump_zero v t)) (hv : vars v = none)
    (hgi : g.instruction = i) (hc : g.count + 1 ≤ limit) :
    execInst i (.jump_zero v t) vars = .next vars ∧
    runAux limit insts (fuel + 1) g i vars =
      ((runAux limit insts fuel ⟨i + 1, g.count + 1⟩ (i + 1) vars).1,
        i :: (runAux limit insts fuel ⟨i + 1, g.count + 1⟩ (i + 1) vars).2) := by
  have hexec : execInst i (.jump_zero v t) vars = .next vars := by
    simp [execInst, hv]
  have hres : genResume limit g none = some ⟨i + 1, g.count + 1⟩ := by
    simp [genResume, hgi, Nat.not_lt.mpr hc]
  exact ⟨hexec, by simp [runAux, hins, hexec, hres]⟩

/-- Single-line program if (x == 0) goto 3 with x uninitialised. -/
def instsJumpZero1 : Int → Option Instruction :=
  fun i => if i == 1 then some (.jump_zero 'x' 3) else none

/-- Witness for C10: the conditional jump at line 1 with x = None falls
through to line 2. -/
theorem jump_zero_uninit_not_taken_witness :
    execInst 1 (.jump_zero 'x' 3) (fun _ => none) = .next (fun _ => none) ∧
    runAux 300 instsJumpZero1 (2 + 1) ⟨1, 0⟩ 1 (fun _ => none) =
      ((runAux 300 instsJumpZero1 2 ⟨1 + 1, 0 + 1⟩ (1 + 1)
          (fun _ => none)).1,
        1 :: (runAux 300 instsJumpZero1 2 ⟨1 + 1, 0 + 1⟩ (1 + 1)
          (fun _ => none)).2) :=
  jump_zero_uninit_not_taken 300 instsJumpZero1 2 ⟨1, 0⟩ 1 'x' 3
    (fun _ => none) rfl rfl rfl (by decide)

end MiniAssembler
